import Mathlib

/-!
A shallow embedding of the tournament-bracket core of the CyberFights
Backend-api (src/app.js; src/index.js and src/unnamed/part_000 repeat the
same tournament block verbatim).  Pure data is modelled with Lean
structures; each HTTP handler's load → mutate → save cycle is modelled as
a function from the tournament aggregate (plus the request fields it
reads) to `Except ApiError Tournament`.  JavaScript-specific behaviour
that the handlers rely on — strict equality (`===`), `Array.includes`,
string/array truthiness, `x || null`, `Number(...)` coercion and
`Array.slice` clamping — is embedded by small explicitly named helpers.
-/

/-- Errors returned by the handlers (each corresponds to one
`res.status(...).send(...)` site in src/app.js). -/
inductive ApiError where
  | tournamentNotFound
  | tournamentExists
  | nameRequired
  | duplicateParticipant
  | insufficientParticipants
  | matchNotFound
  | invalidWinner
  | resultAlreadySet
  | missingFields
deriving Repr, DecidableEq

/-- A JSON scalar as it can arrive in a request for an index-like field:
either a number or a string.  Used to embed `===` versus `Number(...)`
lookups faithfully. -/
inductive JSVal where
  | num (n : Nat)
  | str (s : String)
deriving Repr, DecidableEq

/-- `String.prototype.trim`, written over the character list so that it
reduces definitionally (whitespace as recognised by `Char.isWhitespace`). -/
def jsTrim (s : String) : String :=
  String.mk (((s.data.dropWhile Char.isWhitespace).reverse.dropWhile Char.isWhitespace).reverse)

/-- ASCII lower-casing of one character (`String.prototype.toLowerCase`
restricted to the ASCII names handled here). -/
def lowerChar (c : Char) : Char :=
  if 'A' ≤ c && c ≤ 'Z' then Char.ofNat (c.toNat + 32) else c

/-- `String.prototype.toLowerCase`, written over the character list. -/
def lowerStr (s : String) : String :=
  String.mk (s.data.map lowerChar)

/-- Decimal digit accumulation for `Number(...)` on a string. -/
def parseNatAux : List Char → Nat → Option Nat
  | [], acc => some acc
  | c :: cs, acc =>
    if c.isDigit then parseNatAux cs (acc * 10 + (c.toNat - 48)) else none

/-- JS strict equality `n === v` between a stored number `n` and a request
value `v`: a string is never strictly equal to a number. -/
def jsStrictEqNat (v : JSVal) (n : Nat) : Bool :=
  match v with
  | .num k => k == n
  | .str _ => false

/-- JS `Number(v)` restricted to the values reachable here: numbers map to
themselves, `Number("") = 0`, a digit string parses, anything else is NaN
(modelled as `none`; NaN compares false to everything). -/
def jsToNumber (v : JSVal) : Option Nat :=
  match v with
  | .num n => some n
  | .str s => parseNatAux s.data 0

/-- `x === Number(v)` for a stored number `x`: false when `Number(v)` is
NaN. -/
def natEqJS (v : JSVal) (x : Nat) : Bool :=
  match jsToNumber v with
  | some n => x == n
  | none => false

/-- JS truthiness of a nullable string field (`match.winner`, `notes`):
`null`/`undefined` and `""` are falsy, every other string is truthy. -/
def jsTruthyOptStr : Option String → Bool
  | none => false
  | some s => s != ""

/-- One registered participant (`{ name, email, team }`; the free-form
`extra` map is inert in the bracket core and omitted). -/
structure Participant where
  name : String
  email : String
  team : String
deriving Repr, DecidableEq

/-- One chat entry `{ user, message, timestamp }`. -/
structure ChatMsg where
  user : String
  message : String
  timestamp : String
deriving Repr, DecidableEq

/-- One match record, as built by `/generate` and the advancement block of
`/result`.  `players` is the pair `[p1, p2]` where a slot is `none` for a
JS `null` (a bye). -/
structure Match where
  round : Nat
  matchIndex : Nat
  players : Option String × Option String
  winner : Option String
  scores : List Nat
  chat : List ChatMsg
  notes : String
deriving Repr, DecidableEq

/-- Tournament metadata (the `sponsor` and `customFields` free-form maps
are inert in the bracket core and omitted). -/
structure Meta where
  name : String
  description : String
  themeColor : String
  streamUrl : String
  status : String
deriving Repr, DecidableEq

/-- The tournament aggregate: the whole JSON document stored per
tournament. -/
structure Tournament where
  meta : Meta
  participants : List Participant
  bracket : List (Option String × Option String)
  matchLog : List Match
  roundNumber : Nat
  standings : List String
deriving Repr, DecidableEq

/-- POST /tournament: the fresh document built after the duplicate check
(store-level existence is handled by the callers/`Store` below). -/
def mkTournament (name description themeColor streamUrl : String) : Tournament :=
  { meta := { name := jsTrim name, description := description,
              themeColor := themeColor, streamUrl := streamUrl,
              status := "Registration Open" },
    participants := [], bracket := [], matchLog := [],
    roundNumber := 0, standings := [] }

/-- POST /signup: name required, case-insensitive trimmed duplicate check,
then append `{ name: name.trim(), email, team }`. -/
def signup (t : Tournament) (name email team : String) : Except ApiError Tournament :=
  if jsTrim name = "" then .error .nameRequired
  else if t.participants.any (fun p => lowerStr (jsTrim p.name) == lowerStr (jsTrim name)) then
    .error .duplicateParticipant
  else .ok { t with participants :=
    t.participants ++ [{ name := jsTrim name, email := email, team := team }] }

/-- The pairing loop `for (i = 0; i < seeds.length; i += 2)
bracket.push([seeds[i], seeds[i+1] || null])`, generalised to nullable
entries because the same loop runs over the winners list during
advancement.  `seeds[i+1] || null` turns a falsy entry (`null`,
`undefined` past the end, `""`) into `null`. -/
def pairUpV : List (Option String) → List (Option String × Option String)
  | [] => []
  | [a] => [(a, none)]
  | a :: b :: rest => (a, if jsTruthyOptStr b then b else none) :: pairUpV rest

/-- `bracket.map((pair, idx) => ({ round, matchIndex: idx, players: pair,
winner: null, scores: [], chat: [], notes: "" }))`, with the running index
made explicit. -/
def roundMatchesFrom (r i : Nat) : List (Option String × Option String) → List Match
  | [] => []
  | p :: rest =>
    { round := r, matchIndex := i, players := p, winner := none,
      scores := [], chat := [], notes := "" } :: roundMatchesFrom r (i + 1) rest

/-- The match records emitted for one round from a bracket. -/
def roundMatches (r : Nat) (b : List (Option String × Option String)) : List Match :=
  roundMatchesFrom r 0 b

/-- The player names appearing in a bracket's slots (a `none` bye slot
contributes nothing). -/
def slotNames : List (Option String × Option String) → List String
  | [] => []
  | (a, b) :: rest => a.toList ++ b.toList ++ slotNames rest

/-- POST /generate.  `seeds` is the seed order the handler ends up using:
the `seeding` query array verbatim when one is supplied, otherwise the
outcome of the random-key shuffle of the participant names (theorems about
the random path quantify over all permutations).  Replaces `bracket` and
`matches`, sets `roundNumber := 1` and status "In Progress"; no guard
other than the participant count. -/
def generate (t : Tournament) (seeds : List String) : Except ApiError Tournament :=
  if t.participants.length < 2 then .error .insufficientParticipants
  else
    let b := pairUpV (seeds.map some)
    .ok { t with bracket := b, matchLog := roundMatches 1 b, roundNumber := 1,
                 meta := { t.meta with status := "In Progress" } }

/-- `Array.prototype.find`, returning the prefix before the hit, the first
hit, and the suffix after it (so the in-place mutation of the found
element can be expressed as `pre ++ updated :: post`). -/
def findFirst? (p : α → Bool) : List α → Option (List α × α × List α)
  | [] => none
  | a :: as =>
    if p a then some ([], a, as)
    else
      match findFirst? p as with
      | some (q, b, r) => some (a :: q, b, r)
      | none => none

/-- The lookup predicate of POST /result:
`m.matchIndex === matchIndex && m.round === data.roundNumber`, with the
request's `matchIndex` compared by strict equality (no coercion). -/
def resultPred (mi : JSVal) (rn : Nat) (m : Match) : Bool :=
  jsStrictEqNat mi m.matchIndex && m.round == rn

/-- `match.players.includes(winner)` — `Array.includes` uses SameValueZero,
so a `null` request winner matches a `null` (bye) slot. -/
def playersInclude (p : Option String × Option String) (w : Option String) : Bool :=
  p.1 == w || p.2 == w

/-- The three writes of POST /result after the guards:
`match.winner = winner; if (scores) match.scores = scores;
if (notes) match.notes = notes`.  An omitted body field is `none`; a
provided scores array is always truthy, a provided notes string is truthy
iff nonempty. -/
def applyWrite (m : Match) (w : Option String) (sc : Option (List Nat)) (nt : Option String) : Match :=
  { m with winner := w,
           scores := match sc with | some s => s | none => m.scores,
           notes := match nt with
                    | some s => if s = "" then m.notes else s
                    | none => m.notes }

/-- `winners[0]` in the finish branch.  Whenever the branch runs from
`submitResult` every winner of the current round is truthy and the round
is nonempty, so only the first arm is reachable there. -/
def champOf : List (Option String) → String
  | some s :: _ => s
  | _ => ""

/-- The advancement block of POST /result, run on the document after the
winner write: if no match of the current round is left pending, either
emit the next round (more than one winner) or finish the tournament. -/
def advanceIfComplete (t : Tournament) : Tournament :=
  if (t.matchLog.filter (fun m => m.round == t.roundNumber && !jsTruthyOptStr m.winner)).length = 0 then
    let winners := (t.matchLog.filter (fun m => m.round == t.roundNumber)).map (fun m => m.winner)
    if 1 < winners.length then
      let nb := pairUpV winners
      { t with bracket := nb,
               matchLog := t.matchLog ++ roundMatches (t.roundNumber + 1) nb,
               roundNumber := t.roundNumber + 1 }
    else
      { t with meta := { t.meta with status := "Finished" },
               standings := champOf winners ::
                 (t.participants.filter (fun p => p.name != champOf winners)).map (fun p => p.name) }
  else t

/-- POST /result: find the match of the current round by strict equality,
reject a winner that is not (strictly) one of the two player slots, reject
a truthy already-set winner, write, then run the advancement block. -/
def submitResult (t : Tournament) (mi : JSVal) (w : Option String)
    (sc : Option (List Nat)) (nt : Option String) : Except ApiError Tournament :=
  match findFirst? (resultPred mi t.roundNumber) t.matchLog with
  | none => .error .matchNotFound
  | some (pre, m, post) =>
    if !playersInclude m.players w then .error .invalidWinner
    else if jsTruthyOptStr m.winner then .error .resultAlreadySet
    else .ok (advanceIfComplete { t with matchLog := pre ++ applyWrite m w sc nt :: post })

/-- The lookup predicate of POST /match/chat:
`m.matchIndex === Number(matchIndex) && m.round === Number(round)` — both
query values are coerced with `Number` before comparing. -/
def chatPred (mi rd : JSVal) (m : Match) : Bool :=
  natEqJS mi m.matchIndex && natEqJS rd m.round

/-- POST /match/chat: coerced lookup over the whole history, then the
user/message presence check, then append a timestamped entry (the
timestamp is passed in for `new Date().toISOString()`). -/
def addMatchChat (t : Tournament) (mi rd : JSVal) (user msg ts : String) : Except ApiError Tournament :=
  match findFirst? (chatPred mi rd) t.matchLog with
  | none => .error .matchNotFound
  | some (pre, m, post) =>
    if user = "" || msg = "" then .error .missingFields
    else .ok { t with matchLog :=
      pre ++ { m with chat := m.chat ++ [{ user := user, message := msg, timestamp := ts }] } :: post }

/-- A partial body for PATCH /tournament (`Object.assign(data.meta,
req.body)`): a field present in the body overwrites the stored one. -/
structure MetaPatch where
  name : Option String := none
  description : Option String := none
  themeColor : Option String := none
  streamUrl : Option String := none
  status : Option String := none
deriving Repr, DecidableEq

/-- PATCH /tournament on a loaded aggregate. -/
def patchMeta (t : Tournament) (p : MetaPatch) : Tournament :=
  { t with meta :=
    { name := p.name.getD t.meta.name,
      description := p.description.getD t.meta.description,
      themeColor := p.themeColor.getD t.meta.themeColor,
      streamUrl := p.streamUrl.getD t.meta.streamUrl,
      status := p.status.getD t.meta.status } }

/-- The aggregate half of POST /tournament/rename: after the file move the
document is rewritten with `data.meta.name = newName`. -/
def renameAgg (t : Tournament) (newName : String) : Tournament :=
  { t with meta := { t.meta with name := newName } }

/-- `sanitizeName`: trim, then replace every character outside
`[a-zA-Z0-9-_]` with `_`. -/
def sanitizeName (s : String) : String :=
  String.mk ((jsTrim s).data.map (fun c => if c.isAlphanum || c = '-' || c = '_' then c else '_'))

/-- The on-disk store: one JSON document per sanitized tournament name. -/
def Store : Type := List (String × Tournament)

/-- `loadData`: read the document stored under a key. -/
def storeGet (st : Store) (key : String) : Option Tournament :=
  match st with
  | [] => none
  | kv :: rest => if kv.1 == key then some kv.2 else storeGet rest key

/-- `saveData`: full-document overwrite (replace an existing document or
create a new one). -/
def storePut (st : Store) (key : String) (d : Tournament) : Store :=
  match st with
  | [] => [(key, d)]
  | kv :: rest => if kv.1 == key then (key, d) :: rest else kv :: storePut rest key d

/-- GET /export: return the stored document verbatim. -/
def exportTournament (st : Store) (name : String) : Except ApiError Tournament :=
  match storeGet st (sanitizeName name) with
  | none => .error .tournamentNotFound
  | some d => .ok d

/-- POST /import: name and data required, duplicate check on the target
key, then `saveData(name, data)` — the document is stored verbatim (in
particular `meta.name` is not rewritten). -/
def importTournament (st : Store) (name : String) (d : Tournament) : Except ApiError Store :=
  if name = "" then .error .missingFields
  else if (storeGet st (sanitizeName name)).isSome then .error .tournamentExists
  else .ok (storePut st (sanitizeName name) d)

/-- An index into `Array.prototype.slice`: a negative index counts from the
end clamped at 0, a nonnegative one is clamped at the length. -/
def jsSliceIdx (len : Nat) (i : Int) : Nat :=
  if i < 0 then ((len : Int) + i).toNat else min i.toNat len

/-- `Array.prototype.slice(a, b)`. -/
def jsSlice (l : List α) (a b : Int) : List α :=
  (l.take (jsSliceIdx l.length b)).drop (jsSliceIdx l.length a)

/-- The response of GET /participants/paged. -/
structure PagedResponse where
  participants : List Participant
  total : Nat
  page : Int
  perPage : Int
deriving Repr, DecidableEq

/-- GET /participants/paged: `start = (Number(page) - 1) * Number(perPage)`,
`end = start + Number(perPage)`, `participants.slice(start, end)` plus the
total count. -/
def pagedParticipants (t : Tournament) (page perPage : Int) : PagedResponse :=
  { participants := jsSlice t.participants ((page - 1) * perPage) ((page - 1) * perPage + perPage),
    total := t.participants.length,
    page := page,
    perPage := perPage }

/-- Rank of a status string along the documented lifecycle; the three
values actually written by the handlers are "Registration Open",
"In Progress" and "Finished". -/
def statusRank : String → Nat
  | "In Progress" => 1
  | "Finished" => 2
  | _ => 0

/-- The matches of round `r` in document order
(`data.matches.filter(m => m.round === r)`). -/
def RoundBlock (t : Tournament) (r : Nat) : List Match :=
  t.matchLog.filter (fun m => m.round == r)

/-- The structural bracket invariant of an aggregate: `roundNumber` is 0
exactly when no round has been generated; every match's round lies in
`1..roundNumber` and the top round is nonempty (so `roundNumber` is the
highest round present); each round's matches carry the contiguous 0-based
match indices in document order (one generation per round); and `bracket`
holds exactly the pairings of the current round. -/
def BracketInv (t : Tournament) : Prop :=
  (t.roundNumber = 0 ↔ t.matchLog = []) ∧
  (∀ m ∈ t.matchLog, 1 ≤ m.round ∧ m.round ≤ t.roundNumber) ∧
  (1 ≤ t.roundNumber → RoundBlock t t.roundNumber ≠ []) ∧
  (∀ r, (RoundBlock t r).map (fun m => m.matchIndex) = List.range (RoundBlock t r).length) ∧
  (1 ≤ t.roundNumber → t.bracket = (RoundBlock t t.roundNumber).map (fun m => m.players))

/-- Aggregates reachable through the tournament lifecycle operations
(creation, signup, bracket generation, result submission).  `generate`
takes either the explicit `seeding` query array (verbatim, unvalidated —
a query-string array always has at least one entry) or a random
permutation of the participant names, so the seed list ranges over
arbitrary nonempty lists of strings. -/
inductive Reachable : Tournament → Prop
  | init (name description themeColor streamUrl : String) :
      Reachable (mkTournament name description themeColor streamUrl)
  | signup {t t' : Tournament} (name email team : String) :
      Reachable t → signup t name email team = .ok t' → Reachable t'
  | generate {t t' : Tournament} (seeds : List String) :
      Reachable t → seeds ≠ [] → generate t seeds = .ok t' → Reachable t'
  | result {t t' : Tournament} (mi : JSVal) (w : Option String)
      (sc : Option (List Nat)) (nt : Option String) :
      Reachable t → submitResult t mi w sc nt = .ok t' → Reachable t'

/-- One mutating lifecycle operation, restricted to the calls that do not
abuse the two unguarded status writes: `generate` is only invoked on a
tournament that is not already Finished, and PATCH bodies carry no
`status` field.  (The excluded calls are exactly the ones of the C4
counterexample.) -/
inductive SafeStep : Tournament → Tournament → Prop
  | signup {t t' : Tournament} (name email team : String) :
      signup t name email team = .ok t' → SafeStep t t'
  | generate {t t' : Tournament} (seeds : List String) :
      t.meta.status ≠ "Finished" → generate t seeds = .ok t' → SafeStep t t'
  | result {t t' : Tournament} (mi : JSVal) (w : Option String)
      (sc : Option (List Nat)) (nt : Option String) :
      submitResult t mi w sc nt = .ok t' → SafeStep t t'
  | patch {t : Tournament} (p : MetaPatch) :
      p.status = none → SafeStep t (patchMeta t p)
  | rename {t : Tournament} (newName : String) :
      SafeStep t (renameAgg t newName)

/-- Concrete data: a two-player tournament "Cup" traced through its whole
lifecycle. -/
def demoT0 : Tournament :=
  { meta := { name := "Cup", description := "", themeColor := "",
              streamUrl := "", status := "Registration Open" },
    participants := [], bracket := [], matchLog := [],
    roundNumber := 0, standings := [] }

/-- "Cup" after Alice signs up. -/
def demoT1 : Tournament :=
  { demoT0 with participants := [{ name := "Alice", email := "", team := "" }] }

/-- "Cup" after Bob signs up. -/
def demoT2 : Tournament :=
  { demoT0 with participants :=
      [{ name := "Alice", email := "", team := "" },
       { name := "Bob", email := "", team := "" }] }

/-- The single round-1 match of "Cup" under seed order [Alice, Bob]. -/
def demoM0 : Match :=
  { round := 1, matchIndex := 0, players := (some "Alice", some "Bob"),
    winner := none, scores := [], chat := [], notes := "" }

/-- "Cup" after generating the bracket with seed order [Alice, Bob]. -/
def demoT3 : Tournament :=
  { demoT2 with
    meta := { demoT2.meta with status := "In Progress" },
    bracket := [(some "Alice", some "Bob")],
    matchLog := [demoM0],
    roundNumber := 1 }

/-- "Cup" after Alice wins the only match: finished, standings set. -/
def demoT4 : Tournament :=
  { demoT3 with
    meta := { demoT3.meta with status := "Finished" },
    matchLog := [{ demoM0 with winner := some "Alice" }],
    standings := ["Alice", "Bob"] }

/-- "Cup" after a second `/generate` call on the finished tournament: the
bracket is reset to a fresh round 1 and the status reverts to
"In Progress" (standings are left behind). -/
def demoT5 : Tournament :=
  { demoT4 with
    meta := { demoT4.meta with status := "In Progress" },
    bracket := [(some "Alice", some "Bob")],
    matchLog := [demoM0],
    roundNumber := 1 }

/-- Concrete data: a three-player tournament "Cup3" with a bye. -/
def demo3base : Tournament :=
  { meta := { name := "Cup3", description := "", themeColor := "",
              streamUrl := "", status := "Registration Open" },
    participants := [{ name := "Alice", email := "", team := "" },
                     { name := "Bob", email := "", team := "" },
                     { name := "Carol", email := "", team := "" }],
    bracket := [], matchLog := [], roundNumber := 0, standings := [] }

/-- Round-1 match 0 of "Cup3": Alice vs Bob. -/
def demo3M0 : Match :=
  { round := 1, matchIndex := 0, players := (some "Alice", some "Bob"),
    winner := none, scores := [], chat := [], notes := "" }

/-- Round-1 match 1 of "Cup3": Carol with a bye (null second slot). -/
def demo3M1 : Match :=
  { round := 1, matchIndex := 1, players := (some "Carol", none),
    winner := none, scores := [], chat := [], notes := "" }

/-- "Cup3" after generating with seed order [Alice, Bob, Carol]. -/
def demo3 : Tournament :=
  { demo3base with
    meta := { demo3base.meta with status := "In Progress" },
    bracket := [(some "Alice", some "Bob"), (some "Carol", none)],
    matchLog := [demo3M0, demo3M1],
    roundNumber := 1 }

/-- "Cup3" after Carol's bye result has been submitted (match 0 is still
pending, so no advancement yet). -/
def demo3a : Tournament :=
  { demo3 with matchLog := [demo3M0, { demo3M1 with winner := some "Carol" }] }

/-- Round-2 match of "Cup3": Alice vs Carol. -/
def demo3M2 : Match :=
  { round := 2, matchIndex := 0, players := (some "Alice", some "Carol"),
    winner := none, scores := [], chat := [], notes := "" }

/-- "Cup3" after Alice also wins match 0: round 1 complete, round 2
generated from the winners in match-index order. -/
def demo3b : Tournament :=
  { demo3a with
    bracket := [(some "Alice", some "Carol")],
    matchLog := [{ demo3M0 with winner := some "Alice" },
                 { demo3M1 with winner := some "Carol" }, demo3M2],
    roundNumber := 2 }

/-- "Cup3" after Alice wins the final: finished, standings set. -/
def demo3c : Tournament :=
  { demo3b with
    meta := { demo3b.meta with status := "Finished" },
    matchLog := [{ demo3M0 with winner := some "Alice" },
                 { demo3M1 with winner := some "Carol" },
                 { demo3M2 with winner := some "Alice" }],
    standings := ["Alice", "Bob", "Carol"] }

/-- Ten participants P0..P9 for the pagination example. -/
def demo10 : Tournament :=
  { demoT0 with participants :=
      (["P0", "P1", "P2", "P3", "P4", "P5", "P6", "P7", "P8", "P9"].map
        (fun n => { name := n, email := "", team := "" } : String → Participant)) }

/-- A one-document store holding the finished "Cup" tournament. -/
def demoStore : Store := [("Cup", demoT4)]

/-! ## General lemmas about the embedded operations -/

theorem truthy_eq_some {x : Option String} (h : jsTruthyOptStr x = true) :
    ∃ s, x = some s ∧ s ≠ "" := by
  cases x with
  | none => simp [jsTruthyOptStr] at h
  | some s =>
    refine ⟨s, rfl, ?_⟩
    simpa [jsTruthyOptStr] using h

theorem findFirst?_some {α : Type _} {p : α → Bool} {l : List α} :
    ∀ {pre post : List α} {a : α}, findFirst? p l = some (pre, a, post) →
      l = pre ++ a :: post ∧ p a = true := by
  induction l with
  | nil => intro pre post a h; simp [findFirst?] at h
  | cons x xs ih =>
    intro pre post a h
    simp only [findFirst?] at h
    by_cases hx : p x
    · rw [if_pos hx] at h
      simp only [Option.some.injEq, Prod.mk.injEq] at h
      obtain ⟨rfl, rfl, rfl⟩ := h
      exact ⟨rfl, hx⟩
    · rw [if_neg hx] at h
      cases hrec : findFirst? p xs with
      | none => rw [hrec] at h; simp at h
      | some q =>
        obtain ⟨q1, b, q2⟩ := q
        rw [hrec] at h
        simp only [Option.some.injEq, Prod.mk.injEq] at h
        obtain ⟨rfl, rfl, rfl⟩ := h
        obtain ⟨hl, hp⟩ := ih hrec
        exact ⟨by simp [hl], hp⟩

theorem pairUpV_length : ∀ l : List (Option String), (pairUpV l).length = (l.length + 1) / 2
  | [] => by simp [pairUpV]
  | [a] => by simp [pairUpV]
  | a :: b :: rest => by
    simp only [pairUpV, List.length_cons]
    rw [pairUpV_length rest]
    omega

theorem pairUpV_ne_nil (l : List (Option String)) (h : l ≠ []) : pairUpV l ≠ [] := by
  cases l with
  | nil => exact absurd rfl h
  | cons a tail =>
    cases tail with
    | nil => simp [pairUpV]
    | cons b rest => simp [pairUpV]

theorem slotNames_pairUpV : ∀ l : List (Option String),
    (∀ x ∈ l, jsTruthyOptStr x = true) → slotNames (pairUpV l) = l.reduceOption
  | [] => by intro _; simp [pairUpV, slotNames, List.reduceOption]
  | [a] => by
    intro ht
    obtain ⟨s, rfl, -⟩ := truthy_eq_some (ht a (by simp))
    simp [pairUpV, slotNames, List.reduceOption]
  | a :: b :: rest => by
    intro ht
    have hb : jsTruthyOptStr b = true := ht b (by simp)
    obtain ⟨sa, rfl, -⟩ := truthy_eq_some (ht a (by simp))
    obtain ⟨sb, rfl, -⟩ := truthy_eq_some hb
    have ihr := slotNames_pairUpV rest (fun x hx => ht x (by simp [hx]))
    simp [pairUpV, slotNames, hb, List.reduceOption, ihr]

theorem reduceOption_map_some (l : List String) : (l.map some).reduceOption = l := by
  induction l with
  | nil => simp [List.reduceOption]
  | cons a as ih => simp [List.reduceOption, ih]

theorem pairUpV_bye_count : ∀ l : List (Option String),
    (∀ x ∈ l, jsTruthyOptStr x = true) →
    ((pairUpV l).filter (fun q => q.2 == none)).length = l.length % 2
  | [] => by intro _; simp [pairUpV]
  | [a] => by intro _; simp [pairUpV]
  | a :: b :: rest => by
    intro ht
    have hb : jsTruthyOptStr b = true := ht b (by simp)
    obtain ⟨sb, rfl, hsb⟩ := truthy_eq_some hb
    have hpair : pairUpV (a :: some sb :: rest) = (a, some sb) :: pairUpV rest := by
      simp [pairUpV, hb]
    have ihr := pairUpV_bye_count rest (fun x hx => ht x (by simp [hx]))
    rw [hpair]
    have hfc : ((a, some sb) :: pairUpV rest).filter (fun q => q.2 == none)
        = (pairUpV rest).filter (fun q => q.2 == none) := by
      simp [List.filter_cons]
    rw [hfc, ihr]
    simp only [List.length_cons]
    omega

theorem pairUpV_dropLast_no_bye : ∀ l : List (Option String),
    (∀ x ∈ l, jsTruthyOptStr x = true) →
    ∀ q ∈ (pairUpV l).dropLast, q.2 ≠ none
  | [] => by intro _ q hq; simp [pairUpV] at hq
  | [a] => by intro _ q hq; simp [pairUpV] at hq
  | a :: b :: rest => by
    intro ht q hq
    have hb : jsTruthyOptStr b = true := ht b (by simp)
    obtain ⟨sb, hbe, -⟩ := truthy_eq_some hb
    simp only [pairUpV, hb, if_true] at hq
    cases hrest : pairUpV rest with
    | nil => rw [hrest] at hq; simp at hq
    | cons y ys =>
      rw [hrest] at hq
      rw [List.dropLast_cons₂] at hq
      rcases List.mem_cons.mp hq with hqa | hqtail
      · subst hqa; simp [hbe]
      · have ihr := pairUpV_dropLast_no_bye rest (fun x hx => ht x (by simp [hx]))
        apply ihr
        rw [hrest]
        exact hqtail

theorem roundMatchesFrom_length (r : Nat) :
    ∀ (b : List (Option String × Option String)) (i : Nat),
      (roundMatchesFrom r i b).length = b.length
  | [], _ => rfl
  | p :: rest, i => by
    simp [roundMatchesFrom, roundMatchesFrom_length r rest (i + 1)]

theorem roundMatchesFrom_map_idx (r : Nat) :
    ∀ (b : List (Option String × Option String)) (i : Nat),
      (roundMatchesFrom r i b).map (fun m => m.matchIndex) = List.range' i b.length
  | [], _ => rfl
  | p :: rest, i => by
    simp only [roundMatchesFrom, List.length_cons, List.map_cons]
    rw [roundMatchesFrom_map_idx r rest (i + 1)]
    rfl

theorem roundMatchesFrom_map_players (r : Nat) :
    ∀ (b : List (Option String × Option String)) (i : Nat),
      (roundMatchesFrom r i b).map (fun m => m.players) = b
  | [], _ => rfl
  | p :: rest, i => by
    simp [roundMatchesFrom, roundMatchesFrom_map_players r rest (i + 1)]

theorem roundMatchesFrom_mem (r : Nat) :
    ∀ {b : List (Option String × Option String)} {i : Nat} {x : Match},
      x ∈ roundMatchesFrom r i b →
      x.round = r ∧ x.winner = none ∧ x.scores = [] ∧ x.chat = [] ∧ x.notes = "" := by
  intro b
  induction b with
  | nil => intro i x hx; simp [roundMatchesFrom] at hx
  | cons p rest ih =>
    intro i x hx
    rcases List.mem_cons.mp hx with h | h
    · subst h; exact ⟨rfl, rfl, rfl, rfl, rfl⟩
    · exact ih h

theorem roundMatches_map_idx (r : Nat) (b : List (Option String × Option String)) :
    (roundMatches r b).map (fun m => m.matchIndex) = List.range b.length := by
  rw [roundMatches, roundMatchesFrom_map_idx, List.range_eq_range']

theorem filterRound_update_map {β : Type _} (f : Match → β) {m m' : Match}
    (hr : m'.round = m.round) (hf : f m' = f m) (pre post : List Match) (r : Nat) :
    ((pre ++ m' :: post).filter (fun x => x.round == r)).map f
      = ((pre ++ m :: post).filter (fun x => x.round == r)).map f := by
  simp only [List.filter_append, List.filter_cons, hr]
  by_cases hc : (m.round == r) = true
  · simp [hc, hf]
  · simp [hc]

theorem filterRound_update_length {m m' : Match}
    (hr : m'.round = m.round) (pre post : List Match) (r : Nat) :
    ((pre ++ m' :: post).filter (fun x => x.round == r)).length
      = ((pre ++ m :: post).filter (fun x => x.round == r)).length := by
  have h := filterRound_update_map (fun _ => (0 : Nat)) hr rfl pre post r
  have := congrArg List.length h
  simpa using this

theorem signup_ok_shape {t t' : Tournament} {name email team : String}
    (h : signup t name email team = .ok t') :
    t' = { t with participants :=
      t.participants ++ [{ name := jsTrim name, email := email, team := team }] } := by
  unfold signup at h
  by_cases h1 : jsTrim name = ""
  · rw [if_pos h1] at h; exact absurd h (by simp)
  · rw [if_neg h1] at h
    by_cases h2 : t.participants.any (fun p => lowerStr (jsTrim p.name) == lowerStr (jsTrim name)) = true
    · rw [if_pos h2] at h; exact absurd h (by simp)
    · rw [if_neg h2] at h
      simpa using h.symm

theorem generate_ok_shape {t t' : Tournament} {seeds : List String}
    (h : generate t seeds = .ok t') :
    2 ≤ t.participants.length ∧
    t' = { t with bracket := pairUpV (seeds.map some),
                  matchLog := roundMatches 1 (pairUpV (seeds.map some)),
                  roundNumber := 1,
                  meta := { t.meta with status := "In Progress" } } := by
  unfold generate at h
  by_cases h1 : t.participants.length < 2
  · rw [if_pos h1] at h; exact absurd h (by simp)
  · rw [if_neg h1] at h
    refine ⟨by omega, ?_⟩
    simpa using h.symm

theorem submitResult_ok_decomp {t t' : Tournament} {mi : JSVal} {w : Option String}
    {sc : Option (List Nat)} {nt : Option String}
    (h : submitResult t mi w sc nt = .ok t') :
    ∃ pre m post,
      findFirst? (resultPred mi t.roundNumber) t.matchLog = some (pre, m, post) ∧
      playersInclude m.players w = true ∧
      jsTruthyOptStr m.winner = false ∧
      t' = advanceIfComplete { t with matchLog := pre ++ applyWrite m w sc nt :: post } := by
  unfold submitResult at h
  split at h
  · exact absurd h (by simp)
  · rename_i pre m post hf
    split at h
    · exact absurd h (by simp)
    · rename_i hincl
      split at h
      · exact absurd h (by simp)
      · rename_i hset
        refine ⟨pre, m, post, hf, ?_, ?_, ?_⟩
        · simpa using hincl
        · simpa using hset
        · simpa using h.symm

theorem advance_stay {t : Tournament} {x : Match} (hx : x ∈ t.matchLog)
    (hr : (x.round == t.roundNumber) = true) (hw : jsTruthyOptStr x.winner = false) :
    advanceIfComplete t = t := by
  have hmem : x ∈ t.matchLog.filter (fun m => m.round == t.roundNumber && !jsTruthyOptStr m.winner) :=
    List.mem_filter.mpr ⟨hx, by simp [hr, hw]⟩
  have hne : t.matchLog.filter (fun m => m.round == t.roundNumber && !jsTruthyOptStr m.winner) ≠ [] :=
    List.ne_nil_of_mem hmem
  unfold advanceIfComplete
  rw [if_neg (by simpa [List.length_eq_zero] using hne)]

theorem advance_next {t : Tournament}
    (hall : ∀ x ∈ t.matchLog, (x.round == t.roundNumber) = true → jsTruthyOptStr x.winner = true)
    (hmany : 1 < (RoundBlock t t.roundNumber).length) :
    advanceIfComplete t =
      { t with
        bracket := pairUpV ((RoundBlock t t.roundNumber).map (fun m => m.winner)),
        matchLog := t.matchLog ++ roundMatches (t.roundNumber + 1)
          (pairUpV ((RoundBlock t t.roundNumber).map (fun m => m.winner))),
        roundNumber := t.roundNumber + 1 } := by
  have hnil : t.matchLog.filter (fun m => m.round == t.roundNumber && !jsTruthyOptStr m.winner) = [] := by
    apply List.filter_eq_nil_iff.mpr
    intro x hx
    simp only [Bool.and_eq_true, not_and]
    intro hA
    have := hall x hx hA
    simp [this]
  have hlen : 1 < ((t.matchLog.filter (fun m => m.round == t.roundNumber)).map (fun m => m.winner)).length := by
    simpa [List.length_map] using hmany
  unfold advanceIfComplete
  rw [hnil]
  simp only [List.length_nil]
  rw [if_pos trivial, if_pos hlen]
  rfl

theorem advance_finish {t : Tournament}
    (hall : ∀ x ∈ t.matchLog, (x.round == t.roundNumber) = true → jsTruthyOptStr x.winner = true)
    (hone : (RoundBlock t t.roundNumber).length ≤ 1) :
    advanceIfComplete t =
      { t with
        meta := { t.meta with status := "Finished" },
        standings := champOf ((RoundBlock t t.roundNumber).map (fun m => m.winner)) ::
          (t.participants.filter (fun p =>
            p.name != champOf ((RoundBlock t t.roundNumber).map (fun m => m.winner)))).map
            (fun p => p.name) } := by
  have hnil : t.matchLog.filter (fun m => m.round == t.roundNumber && !jsTruthyOptStr m.winner) = [] := by
    apply List.filter_eq_nil_iff.mpr
    intro x hx
    simp only [Bool.and_eq_true, not_and]
    intro hA
    have := hall x hx hA
    simp [this]
  have hlen : ¬ 1 < ((t.matchLog.filter (fun m => m.round == t.roundNumber)).map (fun m => m.winner)).length := by
    simp only [List.length_map]
    have hone' : (t.matchLog.filter (fun m => m.round == t.roundNumber)).length ≤ 1 := hone
    omega
  unfold advanceIfComplete
  rw [hnil]
  simp only [List.length_nil]
  rw [if_pos trivial, if_neg hlen]
  rfl

theorem advance_status (t : Tournament) :
    (advanceIfComplete t).meta.status = t.meta.status ∨
    (advanceIfComplete t).meta.status = "Finished" := by
  unfold advanceIfComplete
  by_cases h1 : (t.matchLog.filter (fun m => m.round == t.roundNumber && !jsTruthyOptStr m.winner)).length = 0
  · rw [if_pos h1]
    by_cases h2 : 1 < ((t.matchLog.filter (fun m => m.round == t.roundNumber)).map (fun m => m.winner)).length
    · rw [if_pos h2]; left; rfl
    · rw [if_neg h2]; right; rfl
  · rw [if_neg h1]; left; rfl

theorem findFirst?_eq_none {α : Type _} {p : α → Bool} {l : List α}
    (h : ∀ a ∈ l, p a = false) : findFirst? p l = none := by
  induction l with
  | nil => rfl
  | cons x xs ih =>
    simp only [findFirst?]
    rw [if_neg (by simp [h x (by simp)])]
    rw [ih (fun a ha => h a (by simp [ha]))]

theorem take_min_length {α : Type _} (l : List α) (n : Nat) :
    l.take (min n l.length) = l.take n := by
  rcases le_total n l.length with h | h
  · rw [min_eq_left h]
  · rw [min_eq_right h, List.take_length, List.take_of_length_le h]

theorem jsSlice_nonneg {α : Type _} (l : List α) (a b : Int) (ha : 0 ≤ a) (hab : a ≤ b) :
    jsSlice l a b = (l.drop a.toNat).take (b.toNat - a.toNat) := by
  unfold jsSlice jsSliceIdx
  rw [if_neg (by omega), if_neg (by omega)]
  rw [take_min_length]
  have hlen2 : (l.take b.toNat).length ≤ l.length := by
    simp [List.length_take]
  rcases le_total a.toNat l.length with h | h
  · rw [min_eq_left h, List.drop_take]
  · rw [min_eq_right h, List.drop_eq_nil_of_le hlen2, List.drop_eq_nil_of_le h]
    simp

/-! ## Claim theorems -/

/-- Claim C9: for every tournament, `pagedParticipants` uses 1-indexed page
slice semantics — it returns the participants at original indices
`(page-1)*perPage` through `(page-1)*perPage + perPage - 1` inclusive
together with `total` equal to the participant count, and an out-of-range
page yields an empty slice rather than an error. -/
theorem c9_pagination (t : Tournament) (page perPage : Int)
    (hp : 1 ≤ page) (hpp : 0 ≤ perPage) :
    (pagedParticipants t page perPage).participants
        = (t.participants.drop ((page - 1) * perPage).toNat).take perPage.toNat ∧
    (pagedParticipants t page perPage).total = t.participants.length ∧
    ((t.participants.length : Int) ≤ (page - 1) * perPage →
      (pagedParticipants t page perPage).participants = []) := by
  have hs : 0 ≤ (page - 1) * perPage := mul_nonneg (by omega) hpp
  have hslice := jsSlice_nonneg t.participants ((page - 1) * perPage)
    ((page - 1) * perPage + perPage) hs (by omega)
  have htn : ((page - 1) * perPage + perPage).toNat
      = ((page - 1) * perPage).toNat + perPage.toNat := Int.toNat_add hs hpp
  have h1 : (pagedParticipants t page perPage).participants
      = (t.participants.drop ((page - 1) * perPage).toNat).take perPage.toNat := by
    show jsSlice t.participants ((page - 1) * perPage) ((page - 1) * perPage + perPage)
        = (t.participants.drop ((page - 1) * perPage).toNat).take perPage.toNat
    rw [hslice, htn]
    congr 1
    omega
  refine ⟨h1, rfl, ?_⟩
  intro hout
  rw [h1, List.drop_eq_nil_of_le (by omega), List.take_nil]

/-- Witness for C9: ten participants, page 2 with four per page returns the
participants at original indices 4–7 with total 10. -/
theorem c9_witness :
    ((pagedParticipants demo10 2 4).participants
        = (demo10.participants.drop (((2 : Int) - 1) * 4).toNat).take (4 : Int).toNat ∧
     (pagedParticipants demo10 2 4).total = demo10.participants.length ∧
     ((demo10.participants.length : Int) ≤ ((2 : Int) - 1) * 4 →
       (pagedParticipants demo10 2 4).participants = [])) ∧
    (pagedParticipants demo10 2 4).participants =
      [{ name := "P4", email := "", team := "" }, { name := "P5", email := "", team := "" },
       { name := "P6", email := "", team := "" }, { name := "P7", email := "", team := "" }] ∧
    (pagedParticipants demo10 2 4).total = 10 :=
  ⟨c9_pagination demo10 2 4 (by decide) (by decide), by decide, by decide⟩

/-- Claim C10: `submitResult` locates the target match by strict
type-and-value equality on `matchIndex`, so a string-typed index (for
example `"0"`) always fails with `MatchNotFound`; `addMatchChat` coerces
both its `matchIndex` and `round` inputs with `Number(...)` before
comparing, so the same string input succeeds there. -/
theorem c10_strict_lookup (t : Tournament) (s : String) (w : Option String)
    (sc : Option (List Nat)) (nt : Option String) (rd : JSVal) (u msg ts : String)
    (pre post : List Match) (m : Match) :
    submitResult t (JSVal.str s) w sc nt = Except.error ApiError.matchNotFound ∧
    (findFirst? (chatPred (JSVal.str s) rd) t.matchLog = some (pre, m, post) →
     u ≠ "" → msg ≠ "" →
     addMatchChat t (JSVal.str s) rd u msg ts = Except.ok { t with matchLog :=
       pre ++ { m with chat := m.chat ++ [{ user := u, message := msg, timestamp := ts }] } :: post }) := by
  constructor
  · unfold submitResult
    rw [findFirst?_eq_none (fun a _ => by simp [resultPred, jsStrictEqNat])]
  · intro hfind hu hmsg
    unfold addMatchChat
    rw [hfind]
    dsimp only
    rw [if_neg (by simp [hu, hmsg])]

/-- Witness for C10: on the three-player demo, `matchIndex: "0"` fails
`submitResult` with MatchNotFound while the same `"0"` (with round `"1"`)
reaches match 0 through `addMatchChat`. -/
theorem c10_witness :
    submitResult demo3 (JSVal.str "0") (some "Alice") none none
        = Except.error ApiError.matchNotFound ∧
    addMatchChat demo3 (JSVal.str "0") (JSVal.str "1") "Ann" "gl" "t0"
        = Except.ok { demo3 with matchLog :=
            [] ++ { demo3M0 with chat := demo3M0.chat ++
              [{ user := "Ann", message := "gl", timestamp := "t0" }] } :: [demo3M1] } :=
  ⟨(c10_strict_lookup demo3 "0" (some "Alice") none none (JSVal.str "1") "Ann" "gl" "t0"
      [] [demo3M1] demo3M0).1,
   (c10_strict_lookup demo3 "0" (some "Alice") none none (JSVal.str "1") "Ann" "gl" "t0"
      [] [demo3M1] demo3M0).2 rfl (by decide) (by decide)⟩

theorem advance_matchLog_mem (t : Tournament) {x : Match} (hx : x ∈ t.matchLog) :
    x ∈ (advanceIfComplete t).matchLog := by
  unfold advanceIfComplete
  by_cases h1 : (t.matchLog.filter
      (fun m => m.round == t.roundNumber && !jsTruthyOptStr m.winner)).length = 0
  · rw [if_pos h1]
    by_cases h2 : 1 < ((t.matchLog.filter
        (fun m => m.round == t.roundNumber)).map (fun m => m.winner)).length
    · rw [if_pos h2]
      exact List.mem_append_left _ hx
    · rw [if_neg h2]
      exact hx
  · rw [if_neg h1]
    exact hx

/-- Claim C5: a match whose winner is already set (to a truthy name) rejects
any further valid result with ResultAlreadySet, and no successful
`submitResult` ever removes or rewrites a decided match record. -/
theorem c5_result_write_once (t : Tournament) (mi : JSVal) (w : Option String)
    (sc : Option (List Nat)) (nt : Option String)
    (pre post : List Match) (m : Match)
    (hfind : findFirst? (resultPred mi t.roundNumber) t.matchLog = some (pre, m, post))
    (hset : jsTruthyOptStr m.winner = true)
    (hincl : playersInclude m.players w = true) :
    submitResult t mi w sc nt = Except.error ApiError.resultAlreadySet ∧
    ∀ (mi' : JSVal) (w' : Option String) (sc' : Option (List Nat)) (nt' : Option String)
      (t' : Tournament),
      submitResult t mi' w' sc' nt' = Except.ok t' →
      ∀ m0 ∈ t.matchLog, jsTruthyOptStr m0.winner = true → m0 ∈ t'.matchLog := by
  constructor
  · unfold submitResult
    rw [hfind]
    dsimp only
    rw [if_neg (by simp [hincl]), if_pos hset]
  · intro mi' w' sc' nt' t' hok m0 hm0 htr
    obtain ⟨pre', m', post', hfind', hincl', hset', rfl⟩ := submitResult_ok_decomp hok
    obtain ⟨hsplit, -⟩ := findFirst?_some hfind'
    apply advance_matchLog_mem
    show m0 ∈ pre' ++ applyWrite m' w' sc' nt' :: post'
    rw [hsplit] at hm0
    rcases List.mem_append.mp hm0 with h | h
    · exact List.mem_append_left _ h
    · rcases List.mem_cons.mp h with h | h
      · subst h
        rw [htr] at hset'
        cases hset'
      · exact List.mem_append_right _ (List.mem_cons_of_mem _ h)

/-- Witness for C5: on the finished "Cup" demo, a second result for match 0
(naming the other player Bob) fails with ResultAlreadySet. -/
theorem c5_witness :
    submitResult demoT4 (JSVal.num 0) (some "Bob") none none
      = Except.error ApiError.resultAlreadySet :=
  (c5_result_write_once demoT4 (JSVal.num 0) (some "Bob") none none
    [] [] { demoM0 with winner := some "Alice" } rfl (by decide) (by decide)).1

/-- Claim C1 (amended): a winnerName that is not strictly equal to one of
the match's two player slots fails with InvalidWinner (no state change);
however on a bye match a null winnerName IS one of the slots
(`players.includes(null)` is true), so the call is accepted and returns
success — it assigns null, leaving the match Pending and unchanged. -/
theorem c1_invalid_winner (t : Tournament) (mi : JSVal)
    (pre post : List Match) (m : Match)
    (hfind : findFirst? (resultPred mi t.roundNumber) t.matchLog = some (pre, m, post)) :
    (∀ (w : Option String) (sc : Option (List Nat)) (nt : Option String),
       playersInclude m.players w = false →
       submitResult t mi w sc nt = Except.error ApiError.invalidWinner) ∧
    (m.players.2 = none → m.winner = none →
       submitResult t mi none none none = Except.ok t) := by
  obtain ⟨hsplit, hpred⟩ := findFirst?_some hfind
  constructor
  · intro w sc nt hnincl
    unfold submitResult
    rw [hfind]
    dsimp only
    rw [if_pos (by simp [hnincl])]
  · intro hbye hpend
    unfold submitResult
    rw [hfind]
    dsimp only
    rw [if_neg (by simp [playersInclude, hbye]), if_neg (by simp [hpend, jsTruthyOptStr])]
    have hwrite : applyWrite m none none none = m := by
      obtain ⟨rnd, idx, pl, win, sc0, ch, nts⟩ := m
      simp only [applyWrite]
      simp at hpend
      rw [hpend]
    rw [hwrite, ← hsplit]
    have hstay : advanceIfComplete { t with matchLog := t.matchLog } = t := by
      show advanceIfComplete t = t
      apply advance_stay (x := m)
      · rw [hsplit]; exact List.mem_append_right _ (List.mem_cons_self _ _)
      · have hrd := hpred
        unfold resultPred at hrd
        rw [Bool.and_eq_true] at hrd
        exact hrd.2
      · simp [hpend, jsTruthyOptStr]
    rw [hstay]

/-- Witness for C1 (amended): on "Cup3", a winner "Zed" for match 0 fails
InvalidWinner, and a null winner for the bye match 1 is accepted as a
successful no-op. -/
theorem c1_witness :
    submitResult demo3 (JSVal.num 0) (some "Zed") none none
      = Except.error ApiError.invalidWinner ∧
    submitResult demo3 (JSVal.num 1) none none none = Except.ok demo3 :=
  ⟨(c1_invalid_winner demo3 (JSVal.num 0) [] [demo3M1] demo3M0 rfl).1
      (some "Zed") none none (by decide),
   (c1_invalid_winner demo3 (JSVal.num 1) [demo3M0] [] demo3M1 rfl).2 rfl rfl⟩

/-- Counterexample to claim C1 as stated: on the bye match of "Cup3"
(players Carol / null), `submitResult` with winnerName null does NOT fail
with InvalidWinner — `players.includes(null)` holds, so the null slot is
accepted and the call succeeds (the winner stays null, i.e. the bye match
remains Pending and can block the round forever). -/
theorem c1_counterexample :
    (demo3.matchLog[1]?).map (fun m => m.players) = some (some "Carol", none) ∧
    submitResult demo3 (JSVal.num 1) none none none = Except.ok demo3 ∧
    submitResult demo3 (JSVal.num 1) none none none ≠ Except.error ApiError.invalidWinner ∧
    (demo3.matchLog[1]?).map (fun m => m.winner) = some none := by
  refine ⟨rfl, rfl, ?_, rfl⟩
  have h : submitResult demo3 (JSVal.num 1) none none none = Except.ok demo3 := rfl
  rw [h]
  simp

theorem storeGet_storePut_self (st : Store) (k : String) (d : Tournament) :
    storeGet (storePut st k d) k = some d := by
  induction st with
  | nil => simp [storePut, storeGet]
  | cons kv rest ih =>
    by_cases h : (kv.1 == k) = true
    · simp [storePut, storeGet, h]
    · simp only [storePut]
      rw [if_neg h]
      simp only [storeGet]
      rw [if_neg h]
      exact ih

/-- Claim C7: exporting a tournament and importing the exported document
under a fresh name succeeds, and the aggregate stored under the fresh name
has the same participants, bracket, match log, round number, standings and
meta fields (description, theme, stream URL, status) as the original. -/
theorem c7_round_trip (st : Store) (oldName newName : String) (d : Tournament)
    (hexp : exportTournament st oldName = Except.ok d)
    (hfresh : storeGet st (sanitizeName newName) = none)
    (hname : newName ≠ "") :
    storeGet st (sanitizeName oldName) = some d ∧
    ∃ st', importTournament st newName d = Except.ok st' ∧
      ∃ d', storeGet st' (sanitizeName newName) = some d' ∧
        d'.participants = d.participants ∧ d'.bracket = d.bracket ∧
        d'.matchLog = d.matchLog ∧ d'.roundNumber = d.roundNumber ∧
        d'.standings = d.standings ∧ d'.meta.description = d.meta.description ∧
        d'.meta.themeColor = d.meta.themeColor ∧ d'.meta.streamUrl = d.meta.streamUrl ∧
        d'.meta.status = d.meta.status := by
  refine ⟨?_, storePut st (sanitizeName newName) d, ?_, d, storeGet_storePut_self st _ d,
    rfl, rfl, rfl, rfl, rfl, rfl, rfl, rfl, rfl⟩
  · unfold exportTournament at hexp
    cases hget : storeGet st (sanitizeName oldName) with
    | none => rw [hget] at hexp; exact absurd hexp (by simp)
    | some d0 =>
      rw [hget] at hexp
      simp only [Except.ok.injEq] at hexp
      rw [hexp]
  · unfold importTournament
    rw [if_neg hname, if_neg (by simp [hfresh])]

/-- Witness for C7: the finished "Cup" document exported and reimported as
"Copy". -/
theorem c7_witness :
    storeGet demoStore (sanitizeName "Cup") = some demoT4 ∧
    ∃ st', importTournament demoStore "Copy" demoT4 = Except.ok st' ∧
      ∃ d', storeGet st' (sanitizeName "Copy") = some d' ∧
        d'.participants = demoT4.participants ∧ d'.bracket = demoT4.bracket ∧
        d'.matchLog = demoT4.matchLog ∧ d'.roundNumber = demoT4.roundNumber ∧
        d'.standings = demoT4.standings ∧ d'.meta.description = demoT4.meta.description ∧
        d'.meta.themeColor = demoT4.meta.themeColor ∧
        d'.meta.streamUrl = demoT4.meta.streamUrl ∧
        d'.meta.status = demoT4.meta.status :=
  c7_round_trip demoStore "Cup" "Copy" demoT4 rfl rfl (by decide)

theorem statusRank_le_two (s : String) : statusRank s ≤ 2 := by
  unfold statusRank
  split <;> omega

theorem statusRank_le_one_of_ne {s : String} (h : s ≠ "Finished") : statusRank s ≤ 1 := by
  unfold statusRank
  split
  · omega
  · exact absurd rfl h
  · omega

theorem submitResult_ok_status {t t' : Tournament} {mi : JSVal} {w : Option String}
    {sc : Option (List Nat)} {nt : Option String}
    (h : submitResult t mi w sc nt = .ok t') :
    t'.meta.status = t.meta.status ∨ t'.meta.status = "Finished" := by
  obtain ⟨pre, m, post, -, -, -, rfl⟩ := submitResult_ok_decomp h
  exact advance_status { t with matchLog := pre ++ applyWrite m w sc nt :: post }

/-- Claim C4 (amended): the status rank never decreases under signup,
result submission, rename, a PATCH whose body carries no status field, or
a generate call on a tournament that is not already Finished.  (The two
excluded calls — generate on a Finished tournament and PATCH with a status
field — do revert the status; see the counterexample.) -/
theorem c4_status_monotone (t t' : Tournament) (h : SafeStep t t') :
    statusRank t.meta.status ≤ statusRank t'.meta.status := by
  cases h with
  | signup name email team heq =>
    rw [signup_ok_shape heq]
  | generate seeds hstat heq =>
    obtain ⟨-, rfl⟩ := generate_ok_shape heq
    exact statusRank_le_one_of_ne hstat
  | result mi w sc nt heq =>
    rcases submitResult_ok_status heq with h | h
    · rw [h]
    · rw [h]
      exact statusRank_le_two _
  | patch p hno =>
    simp [patchMeta, hno]
  | rename newName =>
    simp [renameAgg]

/-- Witness for C4 (amended): generating the bracket of the open "Cup"
tournament moves the status forward (Registration Open to In Progress). -/
theorem c4_witness :
    statusRank demoT2.meta.status ≤ statusRank demoT3.meta.status :=
  c4_status_monotone demoT2 demoT3 (SafeStep.generate ["Alice", "Bob"] (by decide) rfl)

/-- Counterexample to claim C4 as stated: statuses do revert.  The full
"Cup" lifecycle reaches status Finished, after which a second (unguarded)
`/generate` call succeeds and sets the status back to In Progress; a PATCH
body carrying a status field can likewise write any status. -/
theorem c4_counterexample :
    signup demoT0 "Alice" "" "" = Except.ok demoT1 ∧
    signup demoT1 "Bob" "" "" = Except.ok demoT2 ∧
    generate demoT2 ["Alice", "Bob"] = Except.ok demoT3 ∧
    submitResult demoT3 (JSVal.num 0) (some "Alice") none none = Except.ok demoT4 ∧
    demoT4.meta.status = "Finished" ∧
    generate demoT4 ["Alice", "Bob"] = Except.ok demoT5 ∧
    demoT5.meta.status = "In Progress" ∧
    statusRank demoT5.meta.status < statusRank demoT4.meta.status ∧
    (patchMeta demoT4 { status := some "Registration Open" }).meta.status
      = "Registration Open" :=
  ⟨rfl, rfl, rfl, rfl, rfl, rfl, rfl, by decide, rfl⟩

/-- Claim C6: with the seed order a permutation of the participant names
(which is what the default random shuffle produces), `generate` on N ≥ 2
participants emits exactly ceil(N/2) round-1 matches with contiguous
0-based match indices, fresh fields, covering every participant exactly
once with byes exactly when N is odd and only in the last slot, sets
`roundNumber` to 1 and status to In Progress; with fewer than 2
participants it fails with InsufficientParticipants. -/
theorem c6_generate_bracket (t : Tournament) (seeds : List String)
    (hne : ∀ p ∈ t.participants, p.name ≠ "")
    (hperm : seeds.Perm (t.participants.map (fun p => p.name))) :
    (2 ≤ t.participants.length →
      ∃ t', generate t seeds = Except.ok t' ∧
        t'.matchLog.length = (t.participants.length + 1) / 2 ∧
        t'.matchLog.map (fun m => m.matchIndex) = List.range t'.matchLog.length ∧
        (∀ m ∈ t'.matchLog, m.round = 1 ∧ m.winner = none ∧ m.scores = [] ∧
          m.chat = [] ∧ m.notes = "") ∧
        t'.bracket = pairUpV (seeds.map some) ∧
        (slotNames t'.bracket).Perm (t.participants.map (fun p => p.name)) ∧
        (t'.bracket.filter (fun q => q.2 == none)).length = t.participants.length % 2 ∧
        (∀ q ∈ t'.bracket.dropLast, q.2 ≠ none) ∧
        t'.roundNumber = 1 ∧ t'.meta.status = "In Progress") ∧
    (t.participants.length < 2 →
      generate t seeds = Except.error ApiError.insufficientParticipants) := by
  have htr : ∀ x ∈ seeds.map some, jsTruthyOptStr x = true := by
    intro x hx
    obtain ⟨s, hs, rfl⟩ := List.mem_map.mp hx
    have hsn : s ∈ t.participants.map (fun p => p.name) := hperm.subset hs
    obtain ⟨p, hp, rfl⟩ := List.mem_map.mp hsn
    simp [jsTruthyOptStr, hne p hp]
  have hlenseeds : seeds.length = t.participants.length := by simpa using hperm.length_eq
  constructor
  · intro hN
    refine ⟨{ t with bracket := pairUpV (seeds.map some), matchLog := roundMatches 1 (pairUpV (seeds.map some)), roundNumber := 1, meta := { t.meta with status := "In Progress" } }, ?_, ?_, ?_, ?_, rfl, ?_, ?_, ?_, rfl, rfl⟩
    · unfold generate
      rw [if_neg (by omega)]
    · show (roundMatches 1 (pairUpV (seeds.map some))).length = _
      rw [roundMatches, roundMatchesFrom_length, pairUpV_length]
      simp [hlenseeds]
    · show (roundMatches 1 (pairUpV (seeds.map some))).map (fun m => m.matchIndex) = _
      rw [roundMatches_map_idx]
      congr 1
      rw [roundMatches, roundMatchesFrom_length]
    · intro m hm
      exact roundMatchesFrom_mem 1 hm
    · show (slotNames (pairUpV (seeds.map some))).Perm _
      rw [slotNames_pairUpV _ htr, reduceOption_map_some]
      exact hperm
    · show ((pairUpV (seeds.map some)).filter (fun q => q.2 == none)).length = _
      rw [pairUpV_bye_count _ htr]
      simp [hlenseeds]
    · show ∀ q ∈ (pairUpV (seeds.map some)).dropLast, q.2 ≠ none
      exact pairUpV_dropLast_no_bye _ htr
  · intro hN
    unfold generate
    rw [if_pos hN]

/-- Witness for C6: generating "Cup" (participants Alice, Bob) with the
shuffled seed order [Bob, Alice]. -/
theorem c6_witness :
    ∃ t', generate demoT2 ["Bob", "Alice"] = Except.ok t' ∧
      t'.matchLog.length = (demoT2.participants.length + 1) / 2 ∧
      t'.matchLog.map (fun m => m.matchIndex) = List.range t'.matchLog.length ∧
      (∀ m ∈ t'.matchLog, m.round = 1 ∧ m.winner = none ∧ m.scores = [] ∧
        m.chat = [] ∧ m.notes = "") ∧
      t'.bracket = pairUpV (["Bob", "Alice"].map some) ∧
      (slotNames t'.bracket).Perm (demoT2.participants.map (fun p => p.name)) ∧
      (t'.bracket.filter (fun q => q.2 == none)).length = demoT2.participants.length % 2 ∧
      (∀ q ∈ t'.bracket.dropLast, q.2 ≠ none) ∧
      t'.roundNumber = 1 ∧ t'.meta.status = "In Progress" :=
  (c6_generate_bracket demoT2 ["Bob", "Alice"] (by decide) (by decide)).1 (by decide)

/-- Claim C2: when a successful `submitResult` decides the last Pending
match of the current round and more than one winner remains, a new round
is generated — the winners of the current round, taken in match-index
order (the hypothesis `hmono` states the current round's matches carry the
contiguous indices 0..k in document order, which holds for every reachable
aggregate), are paired consecutively by the same pairing loop, one fresh
match per slot is appended with round `roundNumber+1` and contiguous
indices 0..k, `bracket` is replaced with the new pairing and `roundNumber`
increments by exactly one; and while some match of the current round is
still Pending after the write, no new round is generated. -/
theorem c2_round_advancement (t : Tournament) (mi : Nat) (w : Option String)
    (sc : Option (List Nat)) (nt : Option String)
    (pre post : List Match) (m m' : Match) (cur : List Match) (W : List (Option String))
    (hfind : findFirst? (resultPred (JSVal.num mi) t.roundNumber) t.matchLog
      = some (pre, m, post))
    (hincl : playersInclude m.players w = true)
    (hpend : jsTruthyOptStr m.winner = false)
    (hm' : m' = applyWrite m w sc nt)
    (hcur : cur = (pre ++ m' :: post).filter (fun x => x.round == t.roundNumber))
    (hW : W = cur.map (fun x => x.winner))
    (hmono : (t.matchLog.filter (fun x => x.round == t.roundNumber)).map (fun x => x.matchIndex)
      = List.range (t.matchLog.filter (fun x => x.round == t.roundNumber)).length) :
    ((∀ x ∈ cur, jsTruthyOptStr x.winner = true) → 1 < cur.length →
      submitResult t (JSVal.num mi) w sc nt = Except.ok { t with
          bracket := pairUpV W,
          matchLog := (pre ++ m' :: post) ++ roundMatches (t.roundNumber + 1) (pairUpV W),
          roundNumber := t.roundNumber + 1 } ∧
      cur.map (fun x => x.matchIndex) = List.range cur.length ∧
      (roundMatches (t.roundNumber + 1) (pairUpV W)).map (fun x => x.matchIndex)
          = List.range (pairUpV W).length ∧
      ∀ x ∈ roundMatches (t.roundNumber + 1) (pairUpV W),
          x.round = t.roundNumber + 1 ∧ x.winner = none ∧ x.scores = [] ∧
          x.chat = [] ∧ x.notes = "")
    ∧ ((∃ x ∈ cur, jsTruthyOptStr x.winner = false) →
      submitResult t (JSVal.num mi) w sc nt
        = Except.ok { t with matchLog := pre ++ m' :: post }) := by
  subst hW
  subst hcur
  subst hm'
  obtain ⟨hsplit, hpred⟩ := findFirst?_some hfind
  have hr' : (applyWrite m w sc nt).round = m.round := rfl
  have hcall : submitResult t (JSVal.num mi) w sc nt
      = Except.ok (advanceIfComplete
          { t with matchLog := pre ++ applyWrite m w sc nt :: post }) := by
    unfold submitResult
    rw [hfind]
    dsimp only
    rw [if_neg (by simp [hincl]), if_neg (by simp [hpend])]
  constructor
  · intro hall hmany
    have hall' : ∀ x ∈ ({ t with matchLog := pre ++ applyWrite m w sc nt :: post }
        : Tournament).matchLog,
        (x.round == ({ t with matchLog := pre ++ applyWrite m w sc nt :: post }
          : Tournament).roundNumber) = true → jsTruthyOptStr x.winner = true := by
      intro x hx hxr
      exact hall x (List.mem_filter.mpr ⟨hx, hxr⟩)
    have hadv := advance_next hall' hmany
    rw [hcall, hadv]
    refine ⟨rfl, ?_, roundMatches_map_idx _ _, fun x hx => roundMatchesFrom_mem _ hx⟩
    have h1 := filterRound_update_map (fun x => x.matchIndex) hr' rfl pre post t.roundNumber
    have h2 := filterRound_update_length hr' pre post t.roundNumber
    rw [hsplit] at hmono
    rw [h1, h2]
    exact hmono
  · rintro ⟨x, hx, hxw⟩
    have hmemx := List.mem_filter.mp hx
    have hstay := advance_stay
      (t := { t with matchLog := pre ++ applyWrite m w sc nt :: post })
      hmemx.1 hmemx.2 hxw
    rw [hcall, hstay]

/-- Witness for C2: on "Cup3" with the bye result already recorded,
Alice's win over Bob decides the last pending round-1 match and round 2 is
generated from the winners [Alice, Carol] in match-index order. -/
theorem c2_witness :
    submitResult demo3a (JSVal.num 0) (some "Alice") none none = Except.ok { demo3a with
        bracket := pairUpV [some "Alice", some "Carol"],
        matchLog := ([] ++ { demo3M0 with winner := some "Alice" } :: [{ demo3M1 with winner := some "Carol" }]) ++ roundMatches (demo3a.roundNumber + 1) (pairUpV [some "Alice", some "Carol"]),
        roundNumber := demo3a.roundNumber + 1 } ∧
    [{ demo3M0 with winner := some "Alice" }, { demo3M1 with winner := some "Carol" }].map (fun x => x.matchIndex)
      = List.range [{ demo3M0 with winner := some "Alice" }, { demo3M1 with winner := some "Carol" }].length ∧
    (roundMatches (demo3a.roundNumber + 1) (pairUpV [some "Alice", some "Carol"])).map (fun x => x.matchIndex)
      = List.range (pairUpV [some "Alice", some "Carol"]).length ∧
    ∀ x ∈ roundMatches (demo3a.roundNumber + 1) (pairUpV [some "Alice", some "Carol"]),
      x.round = demo3a.roundNumber + 1 ∧ x.winner = none ∧ x.scores = [] ∧
      x.chat = [] ∧ x.notes = "" :=
  (c2_round_advancement demo3a 0 (some "Alice") none none
    [] [{ demo3M1 with winner := some "Carol" }] demo3M0
    { demo3M0 with winner := some "Alice" }
    [{ demo3M0 with winner := some "Alice" }, { demo3M1 with winner := some "Carol" }]
    [some "Alice", some "Carol"]
    rfl (by decide) (by decide) rfl rfl rfl (by decide)).1 (by decide) (by decide)

theorem filter_ne_name_length : ∀ (l : List Participant) (c : String),
    (l.map (fun p => p.name)).Nodup → c ∈ l.map (fun p => p.name) →
    (l.filter (fun p => p.name != c)).length + 1 = l.length := by
  intro l
  induction l with
  | nil => intro c _ hc; simp at hc
  | cons p rest ih =>
    intro c hnd hc
    simp only [List.map_cons, List.nodup_cons] at hnd
    obtain ⟨hpn, hndr⟩ := hnd
    by_cases he : p.name = c
    · subst he
      have hrest : ∀ q ∈ rest, (q.name != p.name) = true := by
        intro q hq
        have hqn : q.name ∈ rest.map (fun p => p.name) := List.mem_map_of_mem _ hq
        simp only [bne_iff_ne, ne_eq]
        intro heq
        exact hpn (heq ▸ hqn)
      rw [List.filter_cons]
      have hself : (p.name != p.name) = false := by simp
      rw [hself]
      simp only [Bool.false_eq_true, if_false]
      rw [List.filter_eq_self.mpr hrest]
      simp
    · have hcr : c ∈ rest.map (fun p => p.name) := by
        simp only [List.map_cons, List.mem_cons] at hc
        rcases hc with h | h
        · exact absurd h.symm he
        · exact h
      rw [List.filter_cons]
      have hkeep : (p.name != c) = true := by simp [bne_iff_ne, he]
      rw [hkeep]
      simp only [if_true, List.length_cons]
      have := ih c hndr hcr
      omega

/-- Claim C3: when a successful `submitResult` decides the last Pending
match of the current round and exactly one winner (a nonempty name `c`)
remains, the tournament completes: status becomes Finished, and standings
are set to the champion followed by all other participants in original
registration order with the champion excluded; provided the champion is a
registered participant (always the case when the brackets were generated
from the participant list) and participant names are distinct (enforced by
signup), the standings have exactly the participants' length and their
head is the champion. -/
theorem c3_completion (t : Tournament) (mi : JSVal) (c : String)
    (sc : Option (List Nat)) (nt : Option String)
    (pre post : List Match) (m : Match)
    (hfind : findFirst? (resultPred mi t.roundNumber) t.matchLog = some (pre, m, post))
    (hincl : playersInclude m.players (some c) = true)
    (hpend : jsTruthyOptStr m.winner = false)
    (hc : c ≠ "")
    (hlast : (pre ++ post).filter (fun x => x.round == t.roundNumber) = [])
    (hmem : c ∈ t.participants.map (fun p => p.name))
    (hnd : (t.participants.map (fun p => p.name)).Nodup) :
    submitResult t mi (some c) sc nt = Except.ok { t with
      matchLog := pre ++ applyWrite m (some c) sc nt :: post,
      meta := { t.meta with status := "Finished" },
      standings := c :: (t.participants.filter (fun p => p.name != c)).map (fun p => p.name) } ∧
    (c :: (t.participants.filter (fun p => p.name != c)).map (fun p => p.name)).length
      = t.participants.length ∧
    (c :: (t.participants.filter (fun p => p.name != c)).map (fun p => p.name)).head?
      = some c := by
  obtain ⟨hsplit, hpred⟩ := findFirst?_some hfind
  have hrm : (m.round == t.roundNumber) = true := by
    have hrd := hpred
    unfold resultPred at hrd
    rw [Bool.and_eq_true] at hrd
    exact hrd.2
  have hr' : (applyWrite m (some c) sc nt).round = m.round := rfl
  have hcall : submitResult t mi (some c) sc nt
      = Except.ok (advanceIfComplete
          { t with matchLog := pre ++ applyWrite m (some c) sc nt :: post }) := by
    unfold submitResult
    rw [hfind]
    dsimp only
    rw [if_neg (by simp [hincl]), if_neg (by simp [hpend])]
  have hcur : (pre ++ applyWrite m (some c) sc nt :: post).filter
      (fun x => x.round == t.roundNumber) = [applyWrite m (some c) sc nt] := by
    rw [List.filter_append, List.filter_cons]
    have haw : ((applyWrite m (some c) sc nt).round == t.roundNumber) = true := by
      rw [hr']
      exact hrm
    rw [haw]
    simp only [if_true]
    rw [List.filter_append] at hlast
    obtain ⟨h1, h2⟩ := List.append_eq_nil.mp hlast
    rw [h1, h2]
    rfl
  have hblock : RoundBlock { t with matchLog := pre ++ applyWrite m (some c) sc nt :: post }
      t.roundNumber = [applyWrite m (some c) sc nt] := hcur
  have hall' : ∀ x ∈ ({ t with matchLog := pre ++ applyWrite m (some c) sc nt :: post }
      : Tournament).matchLog,
      (x.round == ({ t with matchLog := pre ++ applyWrite m (some c) sc nt :: post }
        : Tournament).roundNumber) = true → jsTruthyOptStr x.winner = true := by
    intro x hx hxr
    have hxcur : x ∈ [applyWrite m (some c) sc nt] := by
      rw [← hcur]
      exact List.mem_filter.mpr ⟨hx, hxr⟩
    simp only [List.mem_singleton] at hxcur
    subst hxcur
    simp [applyWrite, jsTruthyOptStr, hc]
  have hone : (RoundBlock { t with matchLog := pre ++ applyWrite m (some c) sc nt :: post }
      ({ t with matchLog := pre ++ applyWrite m (some c) sc nt :: post }
        : Tournament).roundNumber).length ≤ 1 := by
    show ((pre ++ applyWrite m (some c) sc nt :: post).filter
      (fun x => x.round == t.roundNumber)).length ≤ 1
    rw [hcur]
    simp
  have hfin := advance_finish hall' hone
  refine ⟨?_, ?_, rfl⟩
  · rw [hcall, hfin]
    dsimp only
    rw [hblock]
    rfl
  · simp only [List.length_cons, List.length_map]
    have := filter_ne_name_length t.participants c hnd hmem
    omega

/-- Witness for C3: Alice winning the only match of the two-player "Cup"
finishes it with standings [Alice, Bob]. -/
theorem c3_witness :
    submitResult demoT3 (JSVal.num 0) (some "Alice") none none = Except.ok { demoT3 with
      matchLog := [] ++ applyWrite demoM0 (some "Alice") none none :: [],
      meta := { demoT3.meta with status := "Finished" },
      standings := "Alice" :: (demoT3.participants.filter
        (fun p => p.name != "Alice")).map (fun p => p.name) } ∧
    ("Alice" :: (demoT3.participants.filter
        (fun p => p.name != "Alice")).map (fun p => p.name)).length
      = demoT3.participants.length ∧
    ("Alice" :: (demoT3.participants.filter
        (fun p => p.name != "Alice")).map (fun p => p.name)).head? = some "Alice" :=
  c3_completion demoT3 (JSVal.num 0) "Alice" none none [] [] demoM0
    rfl (by decide) (by decide) (by decide) rfl (by decide) (by decide)

theorem roundMatches_filter_self (r : Nat) (b : List (Option String × Option String)) :
    (roundMatches r b).filter (fun x => x.round == r) = roundMatches r b :=
  List.filter_eq_self.mpr (fun x hx => by simp [(roundMatchesFrom_mem r hx).1])

theorem roundMatches_filter_ne (r r' : Nat) (h : r' ≠ r)
    (b : List (Option String × Option String)) :
    (roundMatches r b).filter (fun x => x.round == r') = [] :=
  List.filter_eq_nil_iff.mpr (fun x hx => by
    simp [(roundMatchesFrom_mem r hx).1, Ne.symm h])

theorem bracketInv_congr {t t' : Tournament} (h1 : t'.matchLog = t.matchLog)
    (h2 : t'.bracket = t.bracket) (h3 : t'.roundNumber = t.roundNumber)
    (hinv : BracketInv t) : BracketInv t' := by
  unfold BracketInv RoundBlock at hinv ⊢
  rw [h1, h2, h3]
  exact hinv

theorem advance_noop {t : Tournament}
    (h : ¬(t.matchLog.filter
      (fun m => m.round == t.roundNumber && !jsTruthyOptStr m.winner)).length = 0) :
    advanceIfComplete t = t := by
  unfold advanceIfComplete
  rw [if_neg h]

theorem inv_update {t : Tournament} (hinv : BracketInv t) {pre post : List Match}
    {m m' : Match} (hsplit : t.matchLog = pre ++ m :: post)
    (hr : m'.round = m.round) (hi : m'.matchIndex = m.matchIndex)
    (hp : m'.players = m.players) :
    BracketInv { t with matchLog := pre ++ m' :: post } := by
  have hm_mem : m ∈ t.matchLog := by
    rw [hsplit]
    exact List.mem_append_right _ (List.mem_cons_self _ _)
  have hrn0 : t.roundNumber ≠ 0 := by
    intro h0
    have := hinv.1.mp h0
    rw [hsplit] at this
    simp at this
  refine ⟨?_, ?_, ?_, ?_, ?_⟩
  · constructor
    · intro h0
      exact absurd h0 hrn0
    · intro h0
      simp at h0
  · intro x hx
    rcases List.mem_append.mp hx with h | h
    · exact hinv.2.1 x (by rw [hsplit]; exact List.mem_append_left _ h)
    · rcases List.mem_cons.mp h with h | h
      · subst h
        rw [hr]
        exact hinv.2.1 m hm_mem
      · exact hinv.2.1 x (by rw [hsplit]; exact List.mem_append_right _ (List.mem_cons_of_mem _ h))
  · intro h1
    have hlen := filterRound_update_length hr pre post t.roundNumber
    have hne := hinv.2.2.1 h1
    unfold RoundBlock at hne ⊢
    rw [hsplit] at hne
    intro hcon
    apply hne
    have : ((pre ++ m' :: post).filter (fun x => x.round == t.roundNumber)).length = 0 := by
      rw [hcon]
      rfl
    rw [hlen] at this
    exact List.length_eq_zero.mp this
  · intro r
    have hmap := filterRound_update_map (fun x => x.matchIndex) hr hi pre post r
    have hlen := filterRound_update_length hr pre post r
    have h4 := hinv.2.2.2.1 r
    unfold RoundBlock at h4 ⊢
    rw [hsplit] at h4
    show ((pre ++ m' :: post).filter (fun x => x.round == r)).map (fun x => x.matchIndex) = _
    rw [hmap, hlen]
    exact h4
  · intro h1
    have hmap := filterRound_update_map (fun x => x.players) hr hp pre post t.roundNumber
    have h5 := hinv.2.2.2.2 h1
    unfold RoundBlock at h5 ⊢
    rw [hsplit] at h5
    show _ = ((pre ++ m' :: post).filter (fun x => x.round == t.roundNumber)).map (fun x => x.players)
    rw [hmap]
    exact h5

theorem inv_append_round (t : Tournament) (hinv : BracketInv t)
    (hlen : 1 < (RoundBlock t t.roundNumber).length) :
    BracketInv { t with
      bracket := pairUpV ((RoundBlock t t.roundNumber).map (fun x => x.winner)),
      matchLog := t.matchLog ++ roundMatches (t.roundNumber + 1)
        (pairUpV ((RoundBlock t t.roundNumber).map (fun x => x.winner))),
      roundNumber := t.roundNumber + 1 } := by
  have hWne : (RoundBlock t t.roundNumber).map (fun x => x.winner) ≠ [] := by
    intro hcon
    have := congrArg List.length hcon
    simp only [List.length_map, List.length_nil] at this
    omega
  have hNBne : pairUpV ((RoundBlock t t.roundNumber).map (fun x => x.winner)) ≠ [] :=
    pairUpV_ne_nil _ hWne
  have hNMlen : (roundMatches (t.roundNumber + 1)
      (pairUpV ((RoundBlock t t.roundNumber).map (fun x => x.winner)))).length
      = (pairUpV ((RoundBlock t t.roundNumber).map (fun x => x.winner))).length :=
    roundMatchesFrom_length _ _ _
  have hNMne : roundMatches (t.roundNumber + 1)
      (pairUpV ((RoundBlock t t.roundNumber).map (fun x => x.winner))) ≠ [] := by
    intro hcon
    apply hNBne
    apply List.length_eq_zero.mp
    rw [← hNMlen, hcon]
    rfl
  have hold_ne : ∀ x ∈ t.matchLog, (x.round == t.roundNumber + 1) = false := by
    intro x hx
    have := hinv.2.1 x hx
    simp only [beq_eq_false_iff_ne, ne_eq]
    omega
  have hold_nil : t.matchLog.filter (fun x => x.round == t.roundNumber + 1) = [] :=
    List.filter_eq_nil_iff.mpr (fun x hx => by simp [hold_ne x hx])
  refine ⟨?_, ?_, ?_, ?_, ?_⟩
  · constructor
    · intro h0
      simp at h0
    · intro h0
      rcases List.append_eq_nil.mp h0 with ⟨-, h2⟩
      exact absurd h2 hNMne
  · intro x hx
    dsimp only at hx ⊢
    rcases List.mem_append.mp hx with h | h
    · have := hinv.2.1 x h
      omega
    · have := (roundMatchesFrom_mem _ h).1
      omega
  · intro hge
    have hgoal : (t.matchLog ++ roundMatches (t.roundNumber + 1)
        (pairUpV ((RoundBlock t t.roundNumber).map (fun x => x.winner)))).filter
        (fun x => x.round == t.roundNumber + 1) ≠ [] := by
      rw [List.filter_append, hold_nil, roundMatches_filter_self]
      simpa using hNMne
    exact hgoal
  · intro r
    have hgoal : ((t.matchLog ++ roundMatches (t.roundNumber + 1)
        (pairUpV ((RoundBlock t t.roundNumber).map (fun x => x.winner)))).filter
        (fun x => x.round == r)).map (fun x => x.matchIndex)
        = List.range ((t.matchLog ++ roundMatches (t.roundNumber + 1)
        (pairUpV ((RoundBlock t t.roundNumber).map (fun x => x.winner)))).filter
        (fun x => x.round == r)).length := by
      rw [List.filter_append]
      by_cases hr : r = t.roundNumber + 1
      · subst hr
        rw [hold_nil, roundMatches_filter_self]
        simp only [List.nil_append]
        rw [roundMatches_map_idx, hNMlen]
      · rw [roundMatches_filter_ne _ _ hr]
        simp only [List.append_nil]
        have h4 := hinv.2.2.2.1 r
        unfold RoundBlock at h4
        exact h4
    exact hgoal
  · intro hge
    have hgoal : pairUpV ((RoundBlock t t.roundNumber).map (fun x => x.winner))
        = ((t.matchLog ++ roundMatches (t.roundNumber + 1)
        (pairUpV ((RoundBlock t t.roundNumber).map (fun x => x.winner)))).filter
        (fun x => x.round == t.roundNumber + 1)).map (fun x => x.players) := by
      rw [List.filter_append, hold_nil, roundMatches_filter_self]
      simp only [List.nil_append]
      rw [roundMatches, roundMatchesFrom_map_players]
    exact hgoal

theorem inv_mk (name description themeColor streamUrl : String) :
    BracketInv (mkTournament name description themeColor streamUrl) := by
  refine ⟨by simp [mkTournament], ?_, ?_, ?_, ?_⟩
  · intro m hm
    simp [mkTournament] at hm
  · intro h1
    simp [mkTournament] at h1
  · intro r
    show (([] : List Match).filter (fun x => x.round == r)).map (fun x => x.matchIndex) = _
    rfl
  · intro h1
    simp [mkTournament] at h1

theorem inv_signup {t t' : Tournament} {name email team : String}
    (hinv : BracketInv t) (h : signup t name email team = .ok t') : BracketInv t' := by
  rw [signup_ok_shape h]
  exact bracketInv_congr rfl rfl rfl hinv

theorem inv_generate {t t' : Tournament} {seeds : List String}
    (hs : seeds ≠ []) (h : generate t seeds = .ok t') : BracketInv t' := by
  obtain ⟨-, rfl⟩ := generate_ok_shape h
  have hBne : pairUpV (seeds.map some) ≠ [] :=
    pairUpV_ne_nil _ (by simp [hs])
  have hmlen : (roundMatches 1 (pairUpV (seeds.map some))).length
      = (pairUpV (seeds.map some)).length := roundMatchesFrom_length _ _ _
  have hmnil : roundMatches 1 (pairUpV (seeds.map some)) ≠ [] := by
    intro hcon
    apply hBne
    apply List.length_eq_zero.mp
    rw [← hmlen, hcon]
    rfl
  refine ⟨?_, ?_, ?_, ?_, ?_⟩
  · constructor
    · intro h0
      simp at h0
    · intro h0
      exact absurd h0 hmnil
  · intro x hx
    dsimp only at hx ⊢
    have := (roundMatchesFrom_mem _ hx).1
    omega
  · intro hge
    have hgoal : (roundMatches 1 (pairUpV (seeds.map some))).filter
        (fun x => x.round == 1) ≠ [] := by
      rw [roundMatches_filter_self]
      exact hmnil
    exact hgoal
  · intro r
    have hgoal : ((roundMatches 1 (pairUpV (seeds.map some))).filter
        (fun x => x.round == r)).map (fun x => x.matchIndex)
        = List.range ((roundMatches 1 (pairUpV (seeds.map some))).filter
          (fun x => x.round == r)).length := by
      by_cases hr : r = 1
      · subst hr
        rw [roundMatches_filter_self, roundMatches_map_idx, hmlen]
      · rw [roundMatches_filter_ne _ _ hr]
        rfl
    exact hgoal
  · intro hge
    have hgoal : pairUpV (seeds.map some)
        = ((roundMatches 1 (pairUpV (seeds.map some))).filter
          (fun x => x.round == 1)).map (fun x => x.players) := by
      rw [roundMatches_filter_self, roundMatches, roundMatchesFrom_map_players]
    exact hgoal

theorem inv_result {t t' : Tournament} {mi : JSVal} {w : Option String}
    {sc : Option (List Nat)} {nt : Option String}
    (hinv : BracketInv t) (h : submitResult t mi w sc nt = .ok t') : BracketInv t' := by
  obtain ⟨pre, m, post, hfind, hincl, hset, rfl⟩ := submitResult_ok_decomp h
  obtain ⟨hsplit, hpred⟩ := findFirst?_some hfind
  have hinv1 : BracketInv { t with matchLog := pre ++ applyWrite m w sc nt :: post } :=
    inv_update hinv hsplit rfl rfl rfl
  by_cases hcnd : (({ t with matchLog := pre ++ applyWrite m w sc nt :: post }
      : Tournament).matchLog.filter (fun x => x.round ==
        ({ t with matchLog := pre ++ applyWrite m w sc nt :: post } : Tournament).roundNumber
        && !jsTruthyOptStr x.winner)).length = 0
  · have hall : ∀ x ∈ ({ t with matchLog := pre ++ applyWrite m w sc nt :: post }
        : Tournament).matchLog,
        (x.round == ({ t with matchLog := pre ++ applyWrite m w sc nt :: post }
          : Tournament).roundNumber) = true → jsTruthyOptStr x.winner = true := by
      have hnil := List.length_eq_zero.mp hcnd
      intro x hx hxr
      have hx2 := List.filter_eq_nil_iff.mp hnil x hx
      simp only [Bool.and_eq_true, not_and] at hx2
      have h2 := hx2 hxr
      simpa using h2
    by_cases hlen : 1 < (RoundBlock { t with matchLog := pre ++ applyWrite m w sc nt :: post }
        ({ t with matchLog := pre ++ applyWrite m w sc nt :: post } : Tournament).roundNumber).length
    · rw [advance_next hall hlen]
      exact inv_append_round _ hinv1 hlen
    · rw [advance_finish hall (by omega)]
      exact bracketInv_congr rfl rfl rfl hinv1
  · rw [advance_noop hcnd]
    exact hinv1

/-- Claim C8: every aggregate reachable through createTournament, signup,
generate and submitResult satisfies the structural bracket invariant:
`roundNumber` is 0 exactly when no matches exist (before any generation);
once generated, `roundNumber` is the highest round present in the match
log; each round's matches carry the contiguous 0-based match indices in
document order (exactly one match set per round); and `bracket` holds
exactly the pairings of the current (highest) round. -/
theorem c8_reachable_inv (t : Tournament) (h : Reachable t) : BracketInv t := by
  induction h with
  | init name description themeColor streamUrl => exact inv_mk _ _ _ _
  | signup name email team hr hs ih => exact inv_signup ih hs
  | generate seeds hr hs hg ih => exact inv_generate hs hg
  | result mi w sc nt hr hs ih => exact inv_result ih hs

/-- Witness for C8: the invariant holds of the "Cup" lifecycle state after
create, two signups, generate and the final result. -/
theorem c8_witness : BracketInv demoT4 :=
  c8_reachable_inv demoT4
    (Reachable.result (JSVal.num 0) (some "Alice") none none
      (Reachable.generate ["Alice", "Bob"]
        (Reachable.signup "Bob" "" ""
          (Reachable.signup "Alice" "" ""
            (Reachable.init "Cup" "" "" "") rfl) rfl)
        (by simp) rfl) rfl)
